import Mathlib

/-!
# Verification of the track-network pathfinding and train-motion engine

A shallow embedding, in Lean 4, of the core logic of an isometric
train-set builder: the track topology model (`src/types`, `src/constants/tracks.ts`),
the connection resolver (`src/logic/connections.ts`), the path builder
(`src/logic/pathfinding.ts`), the motion engine (`src/logic/trainMovement.ts`)
and the history-based carriage follower (`src/components/GameCanvas.tsx`).

Modelling conventions:
* JavaScript numbers are modelled by `Int` (grid coordinates, segment indices,
  elevations, rotations) and by `ℚ` (progress, speed, time, distances, pixel
  coordinates).  The embedding works with exact rational arithmetic and does
  not model floating-point rounding.
* `Map<string, TrackPiece>` is modelled by a `List TrackPiece` holding the
  map's values in insertion order; the source only ever iterates `values()`.
* Unbounded `while` loops are modelled either by well-founded recursion on an
  intrinsic measure or by a fuel parameter whose default value is proved (or
  argued in a comment) to exceed the worst-case number of iterations.
-/

/-- `CardinalDirection` from `src/types/track.ts`: one of N / E / S / W. -/
inductive CardinalDirection where
  | N
  | E
  | S
  | W
deriving DecidableEq, Repr, Inhabited

open CardinalDirection

/-- `DIRECTIONS` from `src/types/track.ts`: the fixed cyclic order used by
`rotateDirection`. -/
def DIRECTIONS : List CardinalDirection := [N, E, S, W]

/-- `GridPosition` from `src/types/grid.ts`. -/
structure GridPosition where
  x : Int
  y : Int
deriving DecidableEq, Repr, Inhabited

/-- `DIRECTION_OFFSETS` from `src/types/track.ts`. -/
def DIRECTION_OFFSETS : CardinalDirection → GridPosition
  | N => ⟨0, -1⟩
  | E => ⟨1, 0⟩
  | S => ⟨0, 1⟩
  | W => ⟨-1, 0⟩

/-- `OPPOSITE_DIRECTION` from `src/types/track.ts`. -/
def OPPOSITE_DIRECTION : CardinalDirection → CardinalDirection
  | N => S
  | E => W
  | S => N
  | W => E

/-- Index of a direction in `DIRECTIONS` (`DIRECTIONS.indexOf` in the source). -/
def dirIndex : CardinalDirection → Nat
  | N => 0
  | E => 1
  | S => 2
  | W => 3

/-- `rotateDirection` from `src/types/track.ts`:
`DIRECTIONS[(index + rotation / 90) % 4]`.  The source restricts `rotation`
to the type `0 | 90 | 180 | 270`; the embedding takes any `Nat` and uses
truncating division, which agrees with the source on those four values. -/
def rotateDirection (direction : CardinalDirection) (rotation : Nat) : CardinalDirection :=
  DIRECTIONS.getD ((dirIndex direction + rotation / 90) % 4) N

/-- `TrackType` from `src/types/track.ts`. -/
inductive TrackType where
  | straight
  | curve_90
  | switch_left
  | switch_right
  | crossing
  | slope_up
  | slope_down
  | bridge
  | tunnel_entrance
  | station
  | signal
deriving DecidableEq, Repr, Inhabited

/-- `'left' | 'right'` switch states from `src/types/track.ts`. -/
inductive SwitchState where
  | left
  | right
deriving DecidableEq, Repr, Inhabited

/-- `'green' | 'red'` signal states from `src/types/track.ts`. -/
inductive SignalState where
  | green
  | red
deriving DecidableEq, Repr, Inhabited

/-- `ConnectionPoint` from `src/types/track.ts`. -/
structure ConnectionPoint where
  side : CardinalDirection
  elevated : Bool
deriving DecidableEq, Repr, Inhabited

/-- `TrackPiece` from `src/types/track.ts`.  `switchState` and `signalState`
are optional fields (`undefined` is modelled by `none`). -/
structure TrackPiece where
  id : String
  type : TrackType
  position : GridPosition
  rotation : Nat
  elevation : Int
  connections : List ConnectionPoint
  switchState : Option SwitchState
  signalState : Option SignalState
deriving DecidableEq, Repr, Inhabited

/-- `TrackDefinition` from `src/types/track.ts`. -/
structure TrackDefinition where
  type : TrackType
  name : String
  description : String
  baseConnections : List (List CardinalDirection)
  canElevate : Bool
  elevationChange : Option Int := none
deriving DecidableEq, Repr, Inhabited

/-- `TRACK_DEFINITIONS` from `src/constants/tracks.ts`.  The source is a
record keyed by the track-type string; since `TrackPiece.type` always holds a
valid `TrackType`, the embedding is a total function on the enumeration. -/
def TRACK_DEFINITIONS : TrackType → TrackDefinition
  | .straight =>
      { type := .straight, name := "Straight", description := "A straight track section",
        baseConnections := [[N, S]], canElevate := true }
  | .curve_90 =>
      { type := .curve_90, name := "Curve", description := "A 90-degree curved track",
        baseConnections := [[N, E]], canElevate := true }
  | .switch_left =>
      { type := .switch_left, name := "Switch (Left)",
        description := "A track switch that can divert left",
        baseConnections := [[S, N], [S, W]], canElevate := false }
  | .switch_right =>
      { type := .switch_right, name := "Switch (Right)",
        description := "A track switch that can divert right",
        baseConnections := [[S, N], [S, E]], canElevate := false }
  | .crossing =>
      { type := .crossing, name := "Crossing",
        description := "Two tracks crossing each other",
        baseConnections := [[N, S], [E, W]], canElevate := false }
  | .slope_up =>
      { type := .slope_up, name := "Slope Up",
        description := "Track going up one elevation level",
        baseConnections := [[N, S]], canElevate := true, elevationChange := some 1 }
  | .slope_down =>
      { type := .slope_down, name := "Slope Down",
        description := "Track going down one elevation level",
        baseConnections := [[N, S]], canElevate := true, elevationChange := some (-1) }
  | .bridge =>
      { type := .bridge, name := "Bridge", description := "Elevated bridge section",
        baseConnections := [[N, S]], canElevate := true }
  | .tunnel_entrance =>
      { type := .tunnel_entrance, name := "Tunnel",
        description := "Tunnel entrance through a hill",
        baseConnections := [[N, S]], canElevate := false }
  | .station =>
      { type := .station, name := "Station", description := "Train station platform",
        baseConnections := [[N, S]], canElevate := false }
  | .signal =>
      { type := .signal, name := "Signal", description := "Track signal light",
        baseConnections := [[N, S]], canElevate := true }

/-! ## Connection resolver (`src/logic/connections.ts`) -/

/-- `getNeighborPosition` from `src/logic/connections.ts`. -/
def getNeighborPosition (pos : GridPosition) (direction : CardinalDirection) : GridPosition :=
  let offset := DIRECTION_OFFSETS direction
  ⟨pos.x + offset.x, pos.y + offset.y⟩

/-- `findTrackAtPosition` from `src/logic/connections.ts`: first track of the
map (in insertion order) whose position matches. -/
def findTrackAtPosition (tracks : List TrackPiece) (position : GridPosition) :
    Option TrackPiece :=
  tracks.find? fun track =>
    track.position.x == position.x && track.position.y == position.y

/-- Insertion-order de-duplication, modelling a JS `Set` converted back to an
array with `Array.from` (first occurrence wins, order preserved). -/
def insertUnique (acc : List CardinalDirection) (d : CardinalDirection) :
    List CardinalDirection :=
  if d ∈ acc then acc else acc ++ [d]

/-- `getTrackConnections` from `src/logic/connections.ts`: the de-duplicated
post-rotation connection directions of a track piece, in first-insertion
order. -/
def getTrackConnections (track : TrackPiece) : List CardinalDirection :=
  let def_ := TRACK_DEFINITIONS track.type
  ((def_.baseConnections.flatten).map fun dir => rotateDirection dir track.rotation).foldl
    insertUnique []

/-- `hasConnectionInDirection` from `src/logic/connections.ts`. -/
def hasConnectionInDirection (track : TrackPiece) (direction : CardinalDirection) : Bool :=
  direction ∈ getTrackConnections track

/-! ## Path builder (`src/logic/pathfinding.ts`) -/

/-- `PathSegment` from `src/logic/pathfinding.ts`. -/
structure PathSegment where
  trackId : String
  track : TrackPiece
  entryDirection : CardinalDirection
  exitDirection : CardinalDirection
  pathIndex : Nat
deriving DecidableEq, Repr, Inhabited

/-- `TrainPath` from `src/logic/pathfinding.ts`. -/
structure TrainPath where
  segments : List PathSegment
  isLoop : Bool
  totalLength : Nat
deriving DecidableEq, Repr, Inhabited

/-- The indexed `for` loop inside `findExitDirection`: scans the declared
connection paths in order, together with their `pathIndex`. -/
def findExitDirectionAux (track : TrackPiece) (entryDirection : CardinalDirection) :
    List (Nat × List CardinalDirection) → Option (CardinalDirection × Nat)
  | [] => none
  | (pathIndex, basePath) :: rest =>
    let rotatedPath := basePath.map fun dir => rotateDirection dir track.rotation
    if entryDirection ∈ rotatedPath then
      match rotatedPath.find? (fun dir => decide (dir ≠ entryDirection)) with
      | some exitDirection =>
        if (track.type = .switch_left ∨ track.type = .switch_right) ∧ pathIndex = 1 then
          -- Path 1 is the divert path, only used when the switch selects it.
          let switchState := track.switchState.getD .left
          if (track.type = .switch_left ∧ switchState ≠ .left) ∨
              (track.type = .switch_right ∧ switchState ≠ .right) then
            findExitDirectionAux track entryDirection rest
          else
            some (exitDirection, pathIndex)
        else
          some (exitDirection, pathIndex)
      | none => findExitDirectionAux track entryDirection rest
    else
      findExitDirectionAux track entryDirection rest

/-- `findExitDirection` from `src/logic/pathfinding.ts`: find the exit
direction (and the index of the connection path used) for a track entered
from `entryDirection`. -/
def findExitDirection (track : TrackPiece) (entryDirection : CardinalDirection) :
    Option (CardinalDirection × Nat) :=
  findExitDirectionAux track entryDirection
    ((TRACK_DEFINITIONS track.type).baseConnections.enum)

/-- The `while (currentTrack)` loop of `buildPath`, with an explicit fuel.
The visited set (`Set<string>` keyed by `` `${id}-${direction}` `` in the
source, a key that uniquely determines the pair because the direction is the
single character after the last dash) is modelled as a list of pairs.
`buildPath` invokes this with more fuel than the loop can ever iterate
(see the fuel-stability theorem below), so the `0` case is unreachable. -/
def buildPathGo (tracks : List TrackPiece) :
    Nat → TrackPiece → CardinalDirection → List (String × CardinalDirection) →
      List PathSegment → List PathSegment × Bool
  | 0, _, _, _, acc => (acc, false)
  | fuel + 1, currentTrack, entryDirection, visitedKeys, acc =>
    if (currentTrack.id, entryDirection) ∈ visitedKeys then
      -- We completed a loop.
      (acc, true)
    else
      let visitedKeys := (currentTrack.id, entryDirection) :: visitedKeys
      match findExitDirection currentTrack entryDirection with
      | none => (acc, false) -- dead end or invalid entry
      | some (exitDirection, pathIndex) =>
        let acc := acc ++ [⟨currentTrack.id, currentTrack, entryDirection,
          exitDirection, pathIndex⟩]
        let nextPos := getNeighborPosition currentTrack.position exitDirection
        match findTrackAtPosition tracks nextPos with
        | none => (acc, false) -- end of track
        | some nextTrack =>
          let nextEntryDirection := OPPOSITE_DIRECTION exitDirection
          if hasConnectionInDirection nextTrack nextEntryDirection then
            buildPathGo tracks fuel nextTrack nextEntryDirection visitedKeys acc
          else
            (acc, false) -- next track does not connect

/-- Default fuel for `buildPathGo`: strictly more than the number of distinct
(track id, entry direction) keys the walk can visit. -/
def buildPathFuel (tracks : List TrackPiece) : Nat :=
  4 * tracks.length + 1

/-- `buildPath` from `src/logic/pathfinding.ts`. -/
def buildPath (startTrack : TrackPiece) (startDirection : CardinalDirection)
    (tracks : List TrackPiece) : TrainPath :=
  let r := buildPathGo tracks (buildPathFuel tracks) startTrack startDirection [] []
  { segments := r.1, isLoop := r.2, totalLength := r.1.length }

/-- `buildFullPathFromStation` from `src/logic/pathfinding.ts`: build a path
in both directions from a station and splice
`reverse(path1 with entry/exit swapped) ++ [station segment] ++ path2`,
so that the station sits in the middle. -/
def buildFullPathFromStation (station : TrackPiece) (tracks : List TrackPiece) :
    Option TrainPath :=
  match getTrackConnections station with
  | [] => none
  | [dir1] =>
    -- Station with only one connection: just build the path from that direction.
    some (buildPath station dir1 tracks)
  | dir1 :: dir2 :: _ =>
    let nextPos1 := getNeighborPosition station.position dir1
    let nextTrack1 := findTrackAtPosition tracks nextPos1
    let nextPos2 := getNeighborPosition station.position dir2
    let nextTrack2 := findTrackAtPosition tracks nextPos2
    let path1Segments : List PathSegment :=
      match nextTrack1 with
      | some t1 =>
        if hasConnectionInDirection t1 (OPPOSITE_DIRECTION dir1) then
          (buildPath t1 (OPPOSITE_DIRECTION dir1) tracks).segments
        else []
      | none => []
    let path2Segments : List PathSegment :=
      match nextTrack2 with
      | some t2 =>
        if hasConnectionInDirection t2 (OPPOSITE_DIRECTION dir2) then
          (buildPath t2 (OPPOSITE_DIRECTION dir2) tracks).segments
        else []
      | none => []
    let stationSegment : PathSegment :=
      ⟨station.id, station, dir1, dir2, 0⟩
    let reversedPath1 : List PathSegment := path1Segments.reverse.map fun seg =>
      { seg with entryDirection := seg.exitDirection, exitDirection := seg.entryDirection }
    let fullSegments : List PathSegment := reversedPath1 ++ [stationSegment] ++ path2Segments
    -- Loop check: the last segment's exit position equals the first segment's
    -- track position.
    let isLoop : Bool :=
      if 2 < fullSegments.length then
        match fullSegments.head?, fullSegments.getLast? with
        | some first, some last =>
          let lastExitPos := getNeighborPosition last.track.position last.exitDirection
          lastExitPos.x == first.track.position.x && lastExitPos.y == first.track.position.y
        | _, _ => false
      else false
    some { segments := fullSegments, isLoop := isLoop, totalLength := fullSegments.length }

/-- One candidate step of the station loop in `findBestPath`: the two
sequential `if` statements that update `bestPath` for one station path.  The
second `if` reads the value `bestPath` already updated by the first (the
source reassigns the same variable); `!bestPath?.isLoop` short-circuits to
`true` when `bestPath` is null, so the default values below are never the
deciding factor. -/
def considerStationPath (best path : Option TrainPath) : Option TrainPath :=
  let best1 :=
    match path with
    | some p =>
      match best with
      | none => some p
      | some b => if b.segments.length < p.segments.length then some p else best
    | none => best
  match path with
  | some p =>
    let incumbentLoop := match best1 with | some b => b.isLoop | none => false
    let incumbentLen := match best1 with | some b => b.segments.length | none => 0
    if p.isLoop && (!incumbentLoop || decide (incumbentLen < p.segments.length)) then
      some p
    else best1
  | none => best1

/-- One candidate step of the fallback loop in `findBestPath`:
`if (!bestPath || path.segments.length > bestPath.segments.length) bestPath = path`. -/
def fallbackStepDir (tracks : List TrackPiece) (track : TrackPiece)
    (best : Option TrainPath) (direction : CardinalDirection) : Option TrainPath :=
  let path := buildPath track direction tracks
  match best with
  | none => some path
  | some b => if b.segments.length < path.segments.length then some path else best

/-- The inner `for (const direction of connections)` loop of the fallback in
`findBestPath`. -/
def fallbackStepTrack (tracks : List TrackPiece) (best : Option TrainPath)
    (track : TrackPiece) : Option TrainPath :=
  (getTrackConnections track).foldl (fallbackStepDir tracks track) best

/-- `findBestPath` from `src/logic/pathfinding.ts`: try station-anchored
paths first (preferring longer paths, and loops); if no station produced a
path, fall back to building a path from every track/direction pair, keeping
the first path of maximal segment count (no loop preference in the
fallback). -/
def findBestPath (tracks : List TrackPiece) : Option TrainPath :=
  let stations := tracks.filter fun t => t.type == TrackType.station
  let bestPath := stations.foldl
    (fun best station => considerStationPath best (buildFullPathFromStation station tracks))
    none
  match bestPath with
  | some _ => bestPath
  | none => tracks.foldl (fallbackStepTrack tracks) none

/-! ## Motion engine (`src/logic/trainMovement.ts`) -/

/-- A point of the tile-local `[0,1]²` space or of screen space. -/
structure Point where
  x : ℚ
  y : ℚ
deriving DecidableEq, Repr, Inhabited

/-- `TILE_WIDTH` from `src/constants/grid.ts`. -/
def TILE_WIDTH : ℚ := 64

/-- `TILE_HEIGHT` from `src/constants/grid.ts`. -/
def TILE_HEIGHT : ℚ := 32

/-- `ELEVATION_HEIGHT` from `src/constants/grid.ts`. -/
def ELEVATION_HEIGHT : ℚ := 16

/-- `gridToScreen` from `src/rendering/isometric.ts`: the fixed isometric
projection. -/
def gridToScreen (x y : ℚ) (elevation : ℚ) : Point :=
  ⟨(x - y) * (TILE_WIDTH / 2), (x + y) * (TILE_HEIGHT / 2) - elevation * ELEVATION_HEIGHT⟩

/-- `BezierPath` from `src/logic/trainMovement.ts`. -/
structure BezierPath where
  p0 : Point
  p1 : Point
  p2 : Point
  p3 : Point
deriving DecidableEq, Repr, Inhabited

/-- `getDirectionPoint` from `src/logic/trainMovement.ts`. -/
def getDirectionPoint : CardinalDirection → Point
  | N => ⟨1/2, 0⟩
  | E => ⟨1, 1/2⟩
  | S => ⟨1/2, 1⟩
  | W => ⟨0, 1/2⟩

/-- `createBezierPath` from `src/logic/trainMovement.ts`. -/
def createBezierPath (entryDirection exitDirection : CardinalDirection) : BezierPath :=
  let entry := getDirectionPoint entryDirection
  let exitP := getDirectionPoint exitDirection
  if (entryDirection = N ∧ exitDirection = S) ∨ (entryDirection = S ∧ exitDirection = N) ∨
      (entryDirection = E ∧ exitDirection = W) ∨ (entryDirection = W ∧ exitDirection = E) then
    { p0 := entry,
      p1 := ⟨(entry.x + exitP.x) / 2, (entry.y + exitP.y) / 2⟩,
      p2 := ⟨(entry.x + exitP.x) / 2, (entry.y + exitP.y) / 2⟩,
      p3 := exitP }
  else
    let center : Point := ⟨1/2, 1/2⟩
    { p0 := entry,
      p1 := ⟨(entry.x + center.x) / 2, (entry.y + center.y) / 2⟩,
      p2 := ⟨(exitP.x + center.x) / 2, (exitP.y + center.y) / 2⟩,
      p3 := exitP }

/-- `bezierPoint` from `src/logic/trainMovement.ts`: cubic Bernstein form. -/
def bezierPoint (path : BezierPath) (t : ℚ) : Point :=
  let u := 1 - t
  let tt := t * t
  let uu := u * u
  let uuu := uu * u
  let ttt := tt * t
  ⟨uuu * path.p0.x + 3 * uu * t * path.p1.x + 3 * u * tt * path.p2.x + ttt * path.p3.x,
   uuu * path.p0.y + 3 * uu * t * path.p1.y + 3 * u * tt * path.p2.y + ttt * path.p3.y⟩

/-- `bezierTangent` from `src/logic/trainMovement.ts`. -/
def bezierTangent (path : BezierPath) (t : ℚ) : Point :=
  let u := 1 - t
  let uu := u * u
  let tt := t * t
  ⟨3 * uu * (path.p1.x - path.p0.x) + 6 * u * t * (path.p2.x - path.p1.x) +
      3 * tt * (path.p3.x - path.p2.x),
   3 * uu * (path.p1.y - path.p0.y) + 6 * u * t * (path.p2.y - path.p1.y) +
      3 * tt * (path.p3.y - path.p2.y)⟩

/-- `localToWorld` from `src/logic/trainMovement.ts`: tile-local coordinates
to world pixels, with linear elevation interpolation using the
midpoint-of-(track, neighbor) convention at each end. -/
def localToWorld (localX localY : ℚ) (track : TrackPiece) (originX originY : ℚ)
    (entryElevation exitElevation : ℚ) (progress : ℚ) : Point :=
  let isoOffsetX := (localX - localY) * (TILE_WIDTH / 2)
  let isoOffsetY := (localX + localY) * (TILE_HEIGHT / 2) - TILE_HEIGHT / 2
  let entryMidpoint := ((track.elevation : ℚ) + entryElevation) / 2
  let exitMidpoint := ((track.elevation : ℚ) + exitElevation) / 2
  let interpolatedElevation := entryMidpoint + (exitMidpoint - entryMidpoint) * progress
  let screenPos := gridToScreen (track.position.x : ℚ) (track.position.y : ℚ)
    interpolatedElevation
  ⟨screenPos.x + originX + isoOffsetX, screenPos.y + originY + isoOffsetY⟩

/-- `TrainPosition` from `src/logic/trainMovement.ts`.  The source stores a
heading angle `rotation = Math.atan2(isoTangentY, isoTangentX)`; the angle of
a rational vector is irrational in general, so the embedding keeps the
isometric-space tangent components the angle is computed from (the empty-path
default `rotation: 0` is represented by the unit tangent `(1, 0)`, whose
`atan2` is `0`). -/
structure TrainPosition where
  segmentIndex : Int
  progress : ℚ
  worldX : ℚ
  worldY : ℚ
  isoTangentX : ℚ
  isoTangentY : ℚ
  direction : Int
deriving DecidableEq, Repr, Inhabited

/-- Segment lookup `path.segments[i]`.  JavaScript would yield `undefined`
(and crash on field access) out of range; every use below is guarded to be in
range, so the default value is never read. -/
def segGet (path : TrainPath) (i : Int) : PathSegment :=
  path.segments.getD i.toNat default

/-- `calculateTrainPosition` from `src/logic/trainMovement.ts`. -/
def calculateTrainPosition (path : TrainPath) (segmentIndex : Int) (progress : ℚ)
    (originX originY : ℚ) (direction : Int) : TrainPosition :=
  if path.segments.length = 0 then
    { segmentIndex := 0, progress := 0, worldX := originX, worldY := originY,
      isoTangentX := 1, isoTangentY := 0, direction := 1 }
  else
    let safeIndex : Int := max 0 (min segmentIndex ((path.segments.length : Int) - 1))
    let segment := segGet path safeIndex
    let bezierPath :=
      if direction = 1 then createBezierPath segment.entryDirection segment.exitDirection
      else createBezierPath segment.exitDirection segment.entryDirection
    let localPos := bezierPoint bezierPath progress
    let len : Int := path.segments.length
    let entryElevation : ℚ :=
      if direction = 1 then
        if 0 ≤ safeIndex - 1 then (segGet path (safeIndex - 1)).track.elevation
        else if path.isLoop ∧ 1 < path.segments.length then
          (segGet path (len - 1)).track.elevation
        else segment.track.elevation
      else
        if safeIndex + 1 < len then (segGet path (safeIndex + 1)).track.elevation
        else if path.isLoop ∧ 1 < path.segments.length then
          (segGet path 0).track.elevation
        else segment.track.elevation
    let exitElevation : ℚ :=
      if direction = 1 then
        if safeIndex + 1 < len then (segGet path (safeIndex + 1)).track.elevation
        else if path.isLoop ∧ 1 < path.segments.length then
          (segGet path 0).track.elevation
        else segment.track.elevation
      else
        if 0 ≤ safeIndex - 1 then (segGet path (safeIndex - 1)).track.elevation
        else if path.isLoop ∧ 1 < path.segments.length then
          (segGet path (len - 1)).track.elevation
        else segment.track.elevation
    let worldPos := localToWorld localPos.x localPos.y segment.track originX originY
      entryElevation exitElevation progress
    let tangent := bezierTangent bezierPath progress
    let isoTangentX := tangent.x - tangent.y
    let isoTangentY := (tangent.x + tangent.y) * (1/2)
    { segmentIndex := safeIndex, progress := progress, worldX := worldPos.x,
      worldY := worldPos.y, isoTangentX := isoTangentX, isoTangentY := isoTangentY,
      direction := direction }

/-- Result record of `advanceTrainPosition`. -/
structure AdvanceResult where
  segmentIndex : Int
  progress : ℚ
  direction : Int
  stopped : Bool
deriving DecidableEq, Repr, Inhabited

/-- The red-signal test `segment.track.type === 'signal' &&
segment.track.signalState === 'red'` from `src/logic/trainMovement.ts`. -/
def isRedSignal (segment : PathSegment) : Bool :=
  segment.track.type == TrackType.signal && segment.track.signalState == some SignalState.red

/-- The forward `while (newProgress >= 1)` loop of `advanceTrainPosition`
(`direction === 1`), with fuel.  Each iteration subtracts `1` from a progress
that is at least `1`, so the loop runs at most `⌈newProgress⌉` times and the
fuel chosen in `advanceTrainPosition` is never exhausted. -/
def advanceForwardGo (path : TrainPath) :
    Nat → ℚ → Int → AdvanceResult
  | 0, newProgress, newSegment => ⟨newSegment, newProgress, 1, false⟩
  | fuel + 1, newProgress, newSegment =>
    if 1 ≤ newProgress then
      let newProgress := newProgress - 1
      let newSegment := newSegment + 1
      if (path.segments.length : Int) ≤ newSegment then
        if path.isLoop then
          -- Loop back to start, then fall through to the signal check.
          if isRedSignal (segGet path 0) then ⟨0, 0, 1, true⟩
          else advanceForwardGo path fuel newProgress 0
        else
          -- Reverse direction at the end of the track; keep the excess progress.
          ⟨(path.segments.length : Int) - 1, newProgress, -1, false⟩
      else
        if isRedSignal (segGet path newSegment) then ⟨newSegment, 0, 1, true⟩
        else advanceForwardGo path fuel newProgress newSegment
    else ⟨newSegment, newProgress, 1, false⟩

/-- The backward `while (newProgress >= 1)` loop of `advanceTrainPosition`
(`direction === -1`), with fuel. -/
def advanceBackwardGo (path : TrainPath) :
    Nat → ℚ → Int → AdvanceResult
  | 0, newProgress, newSegment => ⟨newSegment, newProgress, -1, false⟩
  | fuel + 1, newProgress, newSegment =>
    if 1 ≤ newProgress then
      let newProgress := newProgress - 1
      let newSegment := newSegment - 1
      if newSegment < 0 then
        if path.isLoop then
          if isRedSignal (segGet path ((path.segments.length : Int) - 1)) then
            ⟨(path.segments.length : Int) - 1, 0, -1, true⟩
          else advanceBackwardGo path fuel newProgress ((path.segments.length : Int) - 1)
        else
          -- Reverse direction at the start of the track; keep the excess progress.
          ⟨0, newProgress, 1, false⟩
      else
        if isRedSignal (segGet path newSegment) then ⟨newSegment, 0, -1, true⟩
        else advanceBackwardGo path fuel newProgress newSegment
    else ⟨newSegment, newProgress, -1, false⟩

/-- Fuel bound for the advance loops.  Each loop iteration requires the
running progress (initially `newProgress`, decremented by `1` per iteration)
to be at least `1`, so the loop runs at most `⌊newProgress⌋` times;
`newProgress.num / newProgress.den` is exactly `⌊newProgress⌋` when the loop
runs at all (`newProgress ≥ 1 > 0`), so this fuel strictly exceeds the
iteration count and the `0` fuel case of the loops is unreachable. -/
def advanceFuel (newProgress : ℚ) : Nat :=
  (newProgress.num / (newProgress.den : Int) + 1).toNat + 1

/-- `advanceTrainPosition` from `src/logic/trainMovement.ts`: advance by
`speed * deltaTime`, crossing segment boundaries, reversing at dead ends,
wrapping on loops, stopping on entry into a red-signal segment, and finally
clamping the progress into `[0, 1]`. -/
def advanceTrainPosition (path : TrainPath) (currentSegment : Int)
    (currentProgress speed deltaTime : ℚ) (direction : Int) : AdvanceResult :=
  if path.segments.length = 0 then ⟨0, 0, 1, true⟩
  else
    let newProgress := currentProgress + speed * deltaTime
    let fuel := advanceFuel newProgress
    let r :=
      if direction = 1 then advanceForwardGo path fuel newProgress currentSegment
      else advanceBackwardGo path fuel newProgress currentSegment
    { r with progress := max 0 (min 1 r.progress) }

/-! ## History-based carriage follower (`src/components/GameCanvas.tsx`) -/

/-- `PathHistoryPoint` from `src/components/GameCanvas.tsx`. -/
structure PathHistoryPoint where
  segment : Int
  progress : ℚ
  direction : Int
  distance : ℚ
deriving DecidableEq, Repr, Inhabited

/-- The binary-search `while (left < right)` loop of `findPositionInHistory`:
finds the largest index whose recorded distance is at most the target
(`mid = Math.ceil((left + right) / 2)`). -/
def historySearch (history : List PathHistoryPoint) (targetDistance : ℚ)
    (left right : Nat) : Nat :=
  if h : left < right then
    let mid := (left + right + 1) / 2
    if (history.getD mid default).distance ≤ targetDistance then
      historySearch history targetDistance mid right
    else
      historySearch history targetDistance left (mid - 1)
  else left
termination_by right - left
decreasing_by
  · omega
  · omega

/-- `findPositionInHistory` from `src/components/GameCanvas.tsx`: look up the
engine's recorded position at `currentDistance - offsetDistance`,
interpolating between neighboring samples only when both lie on the same
(segment, direction). -/
def findPositionInHistory (history : List PathHistoryPoint)
    (currentDistance offsetDistance : ℚ) : Option PathHistoryPoint :=
  let targetDistance := currentDistance - offsetDistance
  if targetDistance < 0 ∨ history = [] then
    none -- carriage would be before the start of recorded history
  else
    let left := historySearch history targetDistance 0 (history.length - 1)
    let point := history.getD left default
    if left + 1 < history.length then
      let nextPoint := history.getD (left + 1) default
      let segmentLength := nextPoint.distance - point.distance
      if 0 < segmentLength then
        let t := (targetDistance - point.distance) / segmentLength
        if point.segment = nextPoint.segment ∧ point.direction = nextPoint.direction then
          some { segment := point.segment,
                 progress := point.progress + t * (nextPoint.progress - point.progress),
                 direction := point.direction,
                 distance := targetDistance }
        else some point
      else some point
    else some point

/-- The four legal rotation values of the source type `Rotation`. -/
def legalRotations : List Nat := [0, 90, 180, 270]

/-! ## Verification vocabulary -/

/-- The relation between a walk state (current track, entry direction) and
the previously emitted segment: the current track sits at the neighbor
position in the segment's exit direction, is entered from the opposite of
that exit direction, and has a connection facing back. -/
def linkOK (last : PathSegment) (cur : TrackPiece) (entry : CardinalDirection) : Prop :=
  cur.position = getNeighborPosition last.track.position last.exitDirection ∧
    entry = OPPOSITE_DIRECTION last.exitDirection ∧
    hasConnectionInDirection cur entry = true

/-- Adjacency invariant between consecutive path segments (claim C10). -/
def adjacentOK (s1 s2 : PathSegment) : Prop :=
  linkOK s1 s2.track s2.entryDirection

/-- All (track id, entry direction) keys the `buildPath` walk could ever
record in its visited set, for tracks drawn from the map. -/
def allKeys (tracks : List TrackPiece) : List (String × CardinalDirection) :=
  tracks.flatMap fun t => [(t.id, N), (t.id, E), (t.id, S), (t.id, W)]

/-- Number of keys of `allKeys` not yet visited: the termination measure of
the `buildPath` walk. -/
def remKeys (tracks : List TrackPiece) (visited : List (String × CardinalDirection)) : Nat :=
  ((allKeys tracks).filter fun k => decide (k ∉ visited)).length

/-- Segment count of an optional path (`0` for `none`). -/
def optLen : Option TrainPath → Nat
  | none => 0
  | some p => p.segments.length

/-- A path produced by the fallback branch of `findBestPath`: built by
`buildPath` from some track of the map and one of its connection
directions. -/
def isFallbackCandidate (tracks : List TrackPiece) (p : TrainPath) : Prop :=
  ∃ t ∈ tracks, ∃ d ∈ getTrackConnections t, p = buildPath t d tracks

/-! ## Concrete fixtures used by witnesses and counterexamples -/

/-- Build a track piece at elevation `0` with no stored connection points
(the logic under verification never reads the `connections` field). -/
def mkTrack (id : String) (type : TrackType) (x y : Int) (rotation : Nat)
    (switchState : Option SwitchState) (signalState : Option SignalState) : TrackPiece :=
  ⟨id, type, ⟨x, y⟩, rotation, 0, [], switchState, signalState⟩

/-- A `switch_left` piece at rotation 0 whose switch is set to `left`. -/
def swLeftPiece : TrackPiece := mkTrack "sw" .switch_left 0 0 0 (some .left) none

/-- A `switch_left` piece at rotation 0 whose switch is set to `right`. -/
def swRightStatePiece : TrackPiece := mkTrack "sw" .switch_left 0 0 0 (some .right) none

/-- A path segment traversing `track` from `entry` to `exitDir` on path 0. -/
def segOf (track : TrackPiece) (entry exitDir : CardinalDirection) : PathSegment :=
  ⟨track.id, track, entry, exitDir, 0⟩

/-- Two-segment path whose second segment is a red signal. -/
def sigPath : TrainPath where
  segments :=
    [segOf (mkTrack "s0" .straight 0 1 0 none none) S N,
     segOf (mkTrack "s1" .signal 0 0 0 none (some .red)) S N]
  isLoop := false
  totalLength := 2

/-- Two-segment path whose first segment is a red signal. -/
def sigPath2 : TrainPath where
  segments :=
    [segOf (mkTrack "u0" .signal 0 1 0 none (some .red)) S N,
     segOf (mkTrack "u1" .straight 0 0 0 none none) S N]
  isLoop := false
  totalLength := 2

/-- A 3-segment non-loop path of plain straights. -/
def straight3Path : TrainPath where
  segments :=
    [segOf (mkTrack "t0" .straight 0 2 0 none none) S N,
     segOf (mkTrack "t1" .straight 0 1 0 none none) S N,
     segOf (mkTrack "t2" .straight 0 0 0 none none) S N]
  isLoop := false
  totalLength := 3

/-- A 3-segment path marked as a loop (used for the wrap-around cases). -/
def loop3Path : TrainPath where
  segments :=
    [segOf (mkTrack "v0" .straight 0 2 0 none none) S N,
     segOf (mkTrack "v1" .straight 0 1 0 none none) S N,
     segOf (mkTrack "v2" .straight 0 0 0 none none) S N]
  isLoop := true
  totalLength := 3

/-- The first curve of the 2-by-2 ring in `c4Tracks`. -/
def ringPiece : TrackPiece := mkTrack "r0" .curve_90 3 0 90 none none

/-- A station-free network holding a 4-straight dead-end line (inserted
first) and a disjoint 2-by-2 ring of curves (inserted second). -/
def c4Tracks : List TrackPiece :=
  [mkTrack "l0" .straight 0 0 0 none none,
   mkTrack "l1" .straight 0 1 0 none none,
   mkTrack "l2" .straight 0 2 0 none none,
   mkTrack "l3" .straight 0 3 0 none none,
   ringPiece,
   mkTrack "r1" .curve_90 4 0 180 none none,
   mkTrack "r2" .curve_90 4 1 270 none none,
   mkTrack "r3" .curve_90 3 1 0 none none]

/-- The central crossing of the figure-eight network `figureEightTracks`. -/
def crossingPiece : TrackPiece := mkTrack "c" .crossing 2 2 0 none none

/-- A figure-eight network: two 3-curve lobes joined through one crossing.
A walk from the crossing traverses the crossing twice (once per through
path), so the path has more segments than the map has tracks. -/
def figureEightTracks : List TrackPiece :=
  [crossingPiece,
   mkTrack "a1" .curve_90 2 1 90 none none,
   mkTrack "a2" .curve_90 3 1 180 none none,
   mkTrack "a3" .curve_90 3 2 270 none none,
   mkTrack "b1" .curve_90 2 3 270 none none,
   mkTrack "b2" .curve_90 1 3 0 none none,
   mkTrack "b3" .curve_90 1 2 90 none none]

/-- C7: for every cardinal direction `d` and all rotations `r1`, `r2` in
`{0, 90, 180, 270}`, `rotateDirection (rotateDirection d r1) r2` equals
`rotateDirection d ((r1 + r2) % 360)`. -/
theorem rotateDirection_comp (d : CardinalDirection) (r1 r2 : Nat)
    (h1 : r1 ∈ legalRotations) (h2 : r2 ∈ legalRotations) :
    rotateDirection (rotateDirection d r1) r2 = rotateDirection d ((r1 + r2) % 360) := by
  fin_cases h1 <;> fin_cases h2 <;> cases d <;> rfl

/-- Witness for C7 at `d = E`, `r1 = 270`, `r2 = 270`. -/
theorem rotateDirection_comp_witness :
    270 ∈ legalRotations ∧
      rotateDirection (rotateDirection E 270) 270 = rotateDirection E ((270 + 270) % 360) :=
  ⟨by decide, rotateDirection_comp E 270 270 (by decide) (by decide)⟩

/-! ## Helper lemmas for the motion engine -/

/-- When the accumulated progress stays below `1`, the forward loop body
never runs: position and direction are unchanged. -/
theorem advanceForwardGo_not_crossing (path : TrainPath) (fuel : Nat) (np : ℚ) (s : Int)
    (h : np < 1) : advanceForwardGo path fuel np s = ⟨s, np, 1, false⟩ := by
  cases fuel with
  | zero => rfl
  | succ f =>
    simp only [advanceForwardGo]
    rw [if_neg (not_le.mpr h)]

/-- When the accumulated progress stays below `1`, the backward loop body
never runs. -/
theorem advanceBackwardGo_not_crossing (path : TrainPath) (fuel : Nat) (np : ℚ) (s : Int)
    (h : np < 1) : advanceBackwardGo path fuel np s = ⟨s, np, -1, false⟩ := by
  cases fuel with
  | zero => rfl
  | succ f =>
    simp only [advanceBackwardGo]
    rw [if_neg (not_le.mpr h)]

/-- Forward crossing into an in-range red-signal segment stops the train. -/
theorem advanceForwardGo_cross_red (path : TrainPath) (f : Nat) (np : ℚ) (s : Int)
    (h1 : 1 ≤ np) (hs : s + 1 < (path.segments.length : Int))
    (hred : isRedSignal (segGet path (s + 1)) = true) :
    advanceForwardGo path (f + 1) np s = ⟨s + 1, 0, 1, true⟩ := by
  simp only [advanceForwardGo]
  rw [if_pos h1, if_neg (not_le.mpr hs), if_pos hred]

/-- Forward crossing into an in-range non-red segment continues the loop. -/
theorem advanceForwardGo_cross_free (path : TrainPath) (f : Nat) (np : ℚ) (s : Int)
    (h1 : 1 ≤ np) (hs : s + 1 < (path.segments.length : Int))
    (hred : isRedSignal (segGet path (s + 1)) = false) :
    advanceForwardGo path (f + 1) np s = advanceForwardGo path f (np - 1) (s + 1) := by
  simp only [advanceForwardGo]
  rw [if_pos h1, if_neg (not_le.mpr hs), if_neg (by simp [hred])]

/-- Forward crossing past the last segment of a non-loop path reverses the
direction, keeping the excess progress. -/
theorem advanceForwardGo_end_reverse (path : TrainPath) (f : Nat) (np : ℚ) (s : Int)
    (h1 : 1 ≤ np) (hs : (path.segments.length : Int) ≤ s + 1)
    (hloop : path.isLoop = false) :
    advanceForwardGo path (f + 1) np s =
      ⟨(path.segments.length : Int) - 1, np - 1, -1, false⟩ := by
  simp only [advanceForwardGo]
  rw [if_pos h1, if_pos hs, if_neg (by simp [hloop])]

/-- Forward crossing past the last segment of a loop path wraps to segment 0
(when segment 0 is not a red signal) and keeps looping. -/
theorem advanceForwardGo_end_wrap (path : TrainPath) (f : Nat) (np : ℚ) (s : Int)
    (h1 : 1 ≤ np) (hs : (path.segments.length : Int) ≤ s + 1)
    (hloop : path.isLoop = true) (hred : isRedSignal (segGet path 0) = false) :
    advanceForwardGo path (f + 1) np s = advanceForwardGo path f (np - 1) 0 := by
  simp only [advanceForwardGo]
  rw [if_pos h1, if_pos hs, if_pos hloop, if_neg (by simp [hred])]

/-- Backward crossing into an in-range red-signal segment stops the train. -/
theorem advanceBackwardGo_cross_red (path : TrainPath) (f : Nat) (np : ℚ) (s : Int)
    (h1 : 1 ≤ np) (hs : ¬ s - 1 < 0)
    (hred : isRedSignal (segGet path (s - 1)) = true) :
    advanceBackwardGo path (f + 1) np s = ⟨s - 1, 0, -1, true⟩ := by
  simp only [advanceBackwardGo]
  rw [if_pos h1, if_neg hs, if_pos hred]

/-- Backward crossing past the first segment of a non-loop path reverses the
direction, keeping the excess progress. -/
theorem advanceBackwardGo_start_reverse (path : TrainPath) (f : Nat) (np : ℚ) (s : Int)
    (h1 : 1 ≤ np) (hs : s - 1 < 0) (hloop : path.isLoop = false) :
    advanceBackwardGo path (f + 1) np s = ⟨0, np - 1, 1, false⟩ := by
  simp only [advanceBackwardGo]
  rw [if_pos h1, if_pos hs, if_neg (by simp [hloop])]

/-- Backward crossing past the first segment of a loop path wraps to the last
segment (when it is not a red signal) and keeps looping. -/
theorem advanceBackwardGo_start_wrap (path : TrainPath) (f : Nat) (np : ℚ) (s : Int)
    (h1 : 1 ≤ np) (hs : s - 1 < 0) (hloop : path.isLoop = true)
    (hred : isRedSignal (segGet path ((path.segments.length : Int) - 1)) = false) :
    advanceBackwardGo path (f + 1) np s =
      advanceBackwardGo path f (np - 1) ((path.segments.length : Int) - 1) := by
  simp only [advanceBackwardGo]
  rw [if_pos h1, if_pos hs, if_pos hloop, if_neg (by simp [hred])]

/-- Unfolding `advanceTrainPosition` on a non-empty path. -/
theorem advanceTrainPosition_eq (path : TrainPath) (s : Int) (p speed dt : ℚ) (d : Int)
    (hlen : path.segments.length ≠ 0) :
    advanceTrainPosition path s p speed dt d =
      (let np := p + speed * dt
       let fuel := advanceFuel np
       let r := if d = 1 then advanceForwardGo path fuel np s
         else advanceBackwardGo path fuel np s
       { r with progress := max 0 (min 1 r.progress) }) := by
  unfold advanceTrainPosition
  rw [if_neg hlen]

/-- A non-crossing advance just adds `speed * deltaTime` to the progress. -/
theorem advanceTrainPosition_no_cross (path : TrainPath) (s : Int) (p speed dt : ℚ)
    (d : Int) (hlen : path.segments.length ≠ 0) (h0 : 0 ≤ p + speed * dt)
    (h1 : p + speed * dt < 1) (hd : d = 1 ∨ d = -1) :
    advanceTrainPosition path s p speed dt d = ⟨s, p + speed * dt, d, false⟩ := by
  rw [advanceTrainPosition_eq path s p speed dt d hlen]
  rcases hd with hd | hd <;> subst hd
  · simp [advanceForwardGo_not_crossing path _ _ _ h1, min_eq_right h1.le, max_eq_right h0]
  · simp [advanceBackwardGo_not_crossing path _ _ _ h1, min_eq_right h1.le, max_eq_right h0]

/-- Unfolding `advanceTrainPosition` on a non-empty path, forward. -/
theorem advanceTrainPosition_eq_fwd (path : TrainPath) (s : Int) (p speed dt : ℚ)
    (hlen : path.segments.length ≠ 0) :
    advanceTrainPosition path s p speed dt 1 =
      { advanceForwardGo path
          (((p + speed * dt).num / ((p + speed * dt).den : Int) + 1).toNat + 1)
          (p + speed * dt) s with
        progress := max 0 (min 1 (advanceForwardGo path
          (((p + speed * dt).num / ((p + speed * dt).den : Int) + 1).toNat + 1)
          (p + speed * dt) s).progress) } := by
  unfold advanceTrainPosition advanceFuel
  rw [if_neg hlen]
  simp

/-- Unfolding `advanceTrainPosition` on a non-empty path, backward. -/
theorem advanceTrainPosition_eq_bwd (path : TrainPath) (s : Int) (p speed dt : ℚ)
    (hlen : path.segments.length ≠ 0) :
    advanceTrainPosition path s p speed dt (-1) =
      { advanceBackwardGo path
          (((p + speed * dt).num / ((p + speed * dt).den : Int) + 1).toNat + 1)
          (p + speed * dt) s with
        progress := max 0 (min 1 (advanceBackwardGo path
          (((p + speed * dt).num / ((p + speed * dt).den : Int) + 1).toNat + 1)
          (p + speed * dt) s).progress) } := by
  unfold advanceTrainPosition advanceFuel
  rw [if_neg hlen]
  simp

/-! ## Claim C1 -/

/-- C1 (counterexample): the claim asserts that a `switch_left` track at
rotation 0 entered from S with `switchState = 'left'` exits W on path index 1.
In fact `findExitDirection` matches the main path `['S','N']` first (it also
contains S) and returns exit N on path index 0, never the divert. -/
theorem C1_counterexample :
    findExitDirection swLeftPiece S = some (N, 0) ∧
      findExitDirection swLeftPiece S ≠ some (W, 1) := by
  constructor
  · rfl
  · decide

/-- C1 (amended): for every `switch_left` track at rotation 0 entered with
entry direction S, `findExitDirection` returns exit N with path index 0
(the main path), regardless of the switch state — the divert path is never
taken from entry S because the main path is matched first. -/
theorem C1_amended (t : TrackPiece) (htype : t.type = TrackType.switch_left)
    (hrot : t.rotation = 0) : findExitDirection t S = some (N, 0) := by
  unfold findExitDirection
  rw [htype]
  simp [findExitDirectionAux, TRACK_DEFINITIONS, htype, hrot, rotateDirection, dirIndex,
    DIRECTIONS, List.enum, List.find?]

/-- Witness for C1 at the concrete piece whose switch state is `right`. -/
theorem C1_witness :
    swRightStatePiece.type = TrackType.switch_left ∧ swRightStatePiece.rotation = 0 ∧
      findExitDirection swRightStatePiece S = some (N, 0) :=
  ⟨rfl, rfl, C1_amended swRightStatePiece rfl rfl⟩

/-! ## Claim C2 -/

/-- C2 (counterexample): the claim asserts that a train on a red-signal
segment has its progress clamped to 0 with the stopped flag set on *every*
advance call until the signal turns green.  On `sigPath` (segment 1 is a red
signal) the entering call does clamp, but the very next call, from progress 0
on the still-red segment, advances to progress 1/5 with `stopped = false`:
the signal check only runs when a segment boundary is crossed. -/
theorem C2_counterexample :
    advanceTrainPosition sigPath 0 (9/10) 1 (2/10) 1 = ⟨1, 0, 1, true⟩ ∧
      advanceTrainPosition sigPath 1 0 1 (2/10) 1 = ⟨1, 1/5, 1, false⟩ ∧
      isRedSignal (segGet sigPath 1) = true := by
  have hlen : sigPath.segments.length ≠ 0 := by decide
  refine ⟨?_, ?_, by decide⟩
  · rw [advanceTrainPosition_eq_fwd sigPath 0 (9/10) 1 (2/10) hlen,
      advanceForwardGo_cross_red sigPath _ _ _ (by norm_num) (by decide) (by decide)]
    norm_num
  · have h := advanceTrainPosition_no_cross sigPath 1 0 1 (2/10) 1 hlen (by norm_num)
      (by norm_num) (Or.inl rfl)
    rw [h]
    norm_num

/-- C2 (amended): crossing a segment boundary (in either direction) into a
red-signal segment clamps progress to 0 and sets the stopped flag for that
call; but a subsequent advance call starting at progress 0 on that segment
does not re-clamp — it proceeds into the segment regardless of the signal
state, because the signal check only runs on boundary crossings. -/
theorem C2_signal_stop_behaviour (path : TrainPath) :
    (∀ (s : Int) (p speed dt : ℚ),
        0 ≤ s → s + 1 < (path.segments.length : Int) →
        1 ≤ p + speed * dt → p + speed * dt < 2 →
        isRedSignal (segGet path (s + 1)) = true →
        advanceTrainPosition path s p speed dt 1 = ⟨s + 1, 0, 1, true⟩) ∧
    (∀ (s : Int) (p speed dt : ℚ),
        1 ≤ s → s < (path.segments.length : Int) →
        1 ≤ p + speed * dt → p + speed * dt < 2 →
        isRedSignal (segGet path (s - 1)) = true →
        advanceTrainPosition path s p speed dt (-1) = ⟨s - 1, 0, -1, true⟩) ∧
    (∀ (s : Int) (speed dt : ℚ) (d : Int),
        path.segments.length ≠ 0 → 0 < speed * dt → speed * dt < 1 →
        (d = 1 ∨ d = -1) →
        advanceTrainPosition path s 0 speed dt d = ⟨s, speed * dt, d, false⟩) := by
  refine ⟨?_, ?_, ?_⟩
  · intro s p speed dt h0 hs h1 h2 hred
    have hlen : path.segments.length ≠ 0 := by omega
    rw [advanceTrainPosition_eq_fwd path s p speed dt hlen,
      advanceForwardGo_cross_red path _ _ _ h1 hs hred]
    norm_num
  · intro s p speed dt h0 hs h1 h2 hred
    have hlen : path.segments.length ≠ 0 := by omega
    rw [advanceTrainPosition_eq_bwd path s p speed dt hlen,
      advanceBackwardGo_cross_red path _ _ _ h1 (by omega) hred]
    norm_num
  · intro s speed dt d hlen hpos hlt hd
    have h := advanceTrainPosition_no_cross path s 0 speed dt d hlen (by linarith)
      (by linarith) hd
    simpa using h

/-- Witness for C2 at concrete paths. -/
theorem C2_witness :
    advanceTrainPosition sigPath 0 (1/2) 1 (3/5) 1 = ⟨1, 0, 1, true⟩ ∧
      advanceTrainPosition sigPath2 1 (1/2) 1 (3/5) (-1) = ⟨0, 0, -1, true⟩ ∧
      advanceTrainPosition sigPath 1 0 1 (1/10) 1 = ⟨1, 1/10, 1, false⟩ := by
  refine ⟨?_, ?_, ?_⟩
  · simpa using (C2_signal_stop_behaviour sigPath).1 0 (1/2) 1 (3/5) (by norm_num)
      (by decide) (by norm_num) (by norm_num) (by decide)
  · simpa using (C2_signal_stop_behaviour sigPath2).2.1 1 (1/2) 1 (3/5) (by norm_num)
      (by decide) (by norm_num) (by norm_num) (by decide)
  · simpa using (C2_signal_stop_behaviour sigPath).2.2 1 1 (1/10) 1 (by decide)
      (by norm_num) (by norm_num) (Or.inl rfl)

/-! ## Claim C3 -/

/-- C3 (counterexample): the claim asserts strictly *decreasing* progress for
direction −1.  On `straight3Path`, advancing backward from (segment 1,
progress 1/10) for the longer time 1/5 yields progress 3/10, not less than
the progress 2/10 reached after time 1/10: progress increases in both
directions. -/
theorem C3_counterexample :
    ¬ (advanceTrainPosition straight3Path 1 (1/10) 1 (1/5) (-1)).progress <
        (advanceTrainPosition straight3Path 1 (1/10) 1 (1/10) (-1)).progress := by
  have hlen : straight3Path.segments.length ≠ 0 := by decide
  rw [advanceTrainPosition_no_cross straight3Path 1 (1/10) 1 (1/5) (-1) hlen
      (by norm_num) (by norm_num) (Or.inr rfl),
    advanceTrainPosition_no_cross straight3Path 1 (1/10) 1 (1/10) (-1) hlen
      (by norm_num) (by norm_num) (Or.inr rfl)]
  norm_num

/-- C3 (amended): for every non-empty path, fixed direction (+1 or −1),
positive speed and positive delta times small enough that no segment boundary
is crossed, `advanceTrainPosition` produces strictly *increasing* progress as
time increases, in both directions — backward motion decrements the segment
index but still parametrizes each segment by a progress running 0 → 1. -/
theorem C3_progress_monotone (path : TrainPath) (s : Int) (p speed dt1 dt2 : ℚ)
    (d : Int) (hlen : path.segments.length ≠ 0) (hp : 0 ≤ p) (hspeed : 0 < speed)
    (h1 : 0 < dt1) (h12 : dt1 < dt2) (hno : p + speed * dt2 < 1) (hd : d = 1 ∨ d = -1) :
    (advanceTrainPosition path s p speed dt1 d).progress <
      (advanceTrainPosition path s p speed dt2 d).progress := by
  have hmul : speed * dt1 < speed * dt2 := by
    exact mul_lt_mul_of_pos_left h12 hspeed
  have h01 : 0 < speed * dt1 := mul_pos hspeed h1
  have e1 := advanceTrainPosition_no_cross path s p speed dt1 d hlen (by linarith)
    (by linarith) hd
  have e2 := advanceTrainPosition_no_cross path s p speed dt2 d hlen (by linarith)
    (by linarith) hd
  rw [e1, e2]
  simpa using by linarith

/-- Witness for C3 on the concrete 3-segment path. -/
theorem C3_witness :
    (advanceTrainPosition straight3Path 1 0 1 (1/10) 1).progress <
      (advanceTrainPosition straight3Path 1 0 1 (1/5) 1).progress :=
  C3_progress_monotone straight3Path 1 0 1 (1/10) (1/5) 1 (by decide) le_rfl
    (by norm_num) (by norm_num) (by norm_num) (by norm_num) (Or.inl rfl)

/-! ## Claim C8 -/

/-- C8: `findPositionInHistory` returns `none` whenever the offset distance
exceeds the current distance (negative target) or the history is empty — a
carriage is never placed before the start of recorded history. -/
theorem C8_history_boundary (history : List PathHistoryPoint)
    (currentDistance offsetDistance : ℚ)
    (h : currentDistance < offsetDistance ∨ history = []) :
    findPositionInHistory history currentDistance offsetDistance = none := by
  have hcond : currentDistance - offsetDistance < 0 ∨ history = [] := by
    rcases h with h | h
    · exact Or.inl (by linarith)
    · exact Or.inr h
  unfold findPositionInHistory
  rw [if_pos hcond]

/-- Witness for C8 on an empty history. -/
theorem C8_witness : findPositionInHistory [] 5 1 = none :=
  C8_history_boundary [] 5 1 (Or.inr rfl)

/-! ## Claim C6 -/

/-- C6: on a 3-segment non-loop path, a forward train that would exceed
segment 2 at progress 1 ends at segment 2 with the direction flipped to −1
and the overshoot preserved as the new progress; symmetrically, moving
backward past segment 0 pins to segment 0 and flips the direction to +1;
on a 3-segment loop path, the index wraps instead of flipping (in both
directions), keeping the overshoot. -/
theorem C6_reversal_conservation (path loopPath : TrainPath) (p speed dt : ℚ)
    (hlen : path.segments.length = 3) (hnl : path.isLoop = false)
    (hllen : loopPath.segments.length = 3) (hl : loopPath.isLoop = true)
    (hred0 : isRedSignal (segGet loopPath 0) = false)
    (hred2 : isRedSignal (segGet loopPath 2) = false)
    (hover : 1 ≤ p + speed * dt) (hover2 : p + speed * dt < 2) :
    advanceTrainPosition path 2 p speed dt 1 = ⟨2, p + speed * dt - 1, -1, false⟩ ∧
      advanceTrainPosition path 0 p speed dt (-1) = ⟨0, p + speed * dt - 1, 1, false⟩ ∧
      advanceTrainPosition loopPath 2 p speed dt 1 = ⟨0, p + speed * dt - 1, 1, false⟩ ∧
      advanceTrainPosition loopPath 0 p speed dt (-1) = ⟨2, p + speed * dt - 1, -1, false⟩ := by
  have hne : path.segments.length ≠ 0 := by omega
  have hlne : loopPath.segments.length ≠ 0 := by omega
  have hclamp : max 0 (min 1 (p + speed * dt - 1)) = p + speed * dt - 1 := by
    rw [min_eq_right (by linarith), max_eq_right (by linarith)]
  have hlastIdx : ((loopPath.segments.length : Int) - 1) = 2 := by rw [hllen]; norm_num
  refine ⟨?_, ?_, ?_, ?_⟩
  · rw [advanceTrainPosition_eq_fwd path 2 p speed dt hne,
      advanceForwardGo_end_reverse path _ _ _ hover (by rw [hlen]; norm_num) hnl]
    rw [hlen]
    norm_num [hclamp]
  · rw [advanceTrainPosition_eq_bwd path 0 p speed dt hne,
      advanceBackwardGo_start_reverse path _ _ _ hover (by norm_num) hnl]
    norm_num [hclamp]
  · rw [advanceTrainPosition_eq_fwd loopPath 2 p speed dt hlne,
      advanceForwardGo_end_wrap loopPath _ _ _ hover (by rw [hllen]; norm_num) hl hred0,
      advanceForwardGo_not_crossing loopPath _ _ _ (by linarith)]
    norm_num [hclamp]
  · have hredlast :
        isRedSignal (segGet loopPath ((loopPath.segments.length : Int) - 1)) = false := by
      rw [hlastIdx]; exact hred2
    rw [advanceTrainPosition_eq_bwd loopPath 0 p speed dt hlne,
      advanceBackwardGo_start_wrap loopPath _ _ _ hover (by norm_num) hl hredlast,
      advanceBackwardGo_not_crossing loopPath _ _ _ (by linarith), hlastIdx]
    norm_num [hclamp]

/-- Witness for C6 on the concrete 3-segment paths. -/
theorem C6_witness :
    advanceTrainPosition straight3Path 2 (4/5) 1 (1/2) 1 = ⟨2, 3/10, -1, false⟩ ∧
      advanceTrainPosition straight3Path 0 (4/5) 1 (1/2) (-1) = ⟨0, 3/10, 1, false⟩ ∧
      advanceTrainPosition loop3Path 2 (4/5) 1 (1/2) 1 = ⟨0, 3/10, 1, false⟩ ∧
      advanceTrainPosition loop3Path 0 (4/5) 1 (1/2) (-1) = ⟨2, 3/10, -1, false⟩ := by
  obtain ⟨h1, h2, h3, h4⟩ := C6_reversal_conservation straight3Path loop3Path (4/5) 1 (1/2)
    (by decide) (by decide) (by decide) (by decide) (by decide) (by decide)
    (by norm_num) (by norm_num)
  refine ⟨?_, ?_, ?_, ?_⟩
  · rw [h1]; norm_num
  · rw [h2]; norm_num
  · rw [h3]; norm_num
  · rw [h4]; norm_num

/-! ## Claim C10 -/

/-- A track found by `findTrackAtPosition` is a member of the map. -/
theorem findTrackAtPosition_mem {tracks : List TrackPiece} {pos : GridPosition}
    {t : TrackPiece} (h : findTrackAtPosition tracks pos = some t) : t ∈ tracks :=
  List.mem_of_find?_eq_some h

/-- A track found by `findTrackAtPosition` sits at the queried position. -/
theorem findTrackAtPosition_position {tracks : List TrackPiece} {pos : GridPosition}
    {t : TrackPiece} (h : findTrackAtPosition tracks pos = some t) : t.position = pos := by
  have hp := List.find?_some h
  simp only [Bool.and_eq_true, beq_iff_eq] at hp
  obtain ⟨hx, hy⟩ := hp
  cases hpos : t.position
  cases pos
  simp_all

/-- The `buildPath` walk only ever extends its accumulator with a segment
that is `adjacentOK`-linked to the accumulator's last segment. -/
theorem buildPathGo_chain (tracks : List TrackPiece) :
    ∀ (fuel : Nat) (cur : TrackPiece) (entry : CardinalDirection)
      (visited : List (String × CardinalDirection)) (acc : List PathSegment),
      acc.Chain' adjacentOK →
      (∀ last, acc.getLast? = some last → linkOK last cur entry) →
      ((buildPathGo tracks fuel cur entry visited acc).1).Chain' adjacentOK := by
  intro fuel
  induction fuel with
  | zero =>
    intro cur entry visited acc hchain _
    simpa [buildPathGo] using hchain
  | succ f ih =>
    intro cur entry visited acc hchain hlink
    have hchain2 : ∀ exitDir pIdx,
        (acc ++ [(⟨cur.id, cur, entry, exitDir, pIdx⟩ : PathSegment)]).Chain' adjacentOK := by
      intro exitDir pIdx
      rw [List.chain'_append]
      refine ⟨hchain, List.chain'_singleton _, ?_⟩
      intro x hx y hy
      simp only [List.head?_cons, Option.mem_def, Option.some.injEq] at hy
      subst hy
      exact hlink x hx
    simp only [buildPathGo]
    split
    · exact hchain
    · split
      · exact hchain
      · rename_i exitDir pIdx heq
        split
        · exact hchain2 exitDir pIdx
        · rename_i nextTrack hnt
          split
          · rename_i hconn
            apply ih _ _ _ _ (hchain2 exitDir pIdx)
            intro last hlast
            rw [List.getLast?_concat] at hlast
            have hlast' : (⟨cur.id, cur, entry, exitDir, pIdx⟩ : PathSegment) = last := by
              simpa using hlast
            subst hlast'
            unfold linkOK
            refine ⟨?_, rfl, hconn⟩
            simpa using findTrackAtPosition_position hnt
          · exact hchain2 exitDir pIdx

/-- C10: in every path returned by `buildPath`, each pair of consecutive
segments is properly linked: the next segment's track occupies the grid
position adjacent to the previous track in its exit direction, its entry
direction is the opposite of the previous exit direction, and its track has a
post-rotation connection in that entry direction. -/
theorem C10_consecutive_segments_linked (startTrack : TrackPiece)
    (startDirection : CardinalDirection) (tracks : List TrackPiece) :
    ((buildPath startTrack startDirection tracks).segments).Chain' adjacentOK := by
  unfold buildPath
  exact buildPathGo_chain tracks _ startTrack startDirection [] []
    List.chain'_nil (by intro last h; simp at h)

/-! ## Claim C5 -/

/-- Every (id, direction) key of a map track is in `allKeys`. -/
theorem mem_allKeys {tracks : List TrackPiece} {t : TrackPiece} (ht : t ∈ tracks)
    (d : CardinalDirection) : (t.id, d) ∈ allKeys tracks := by
  unfold allKeys
  refine List.mem_flatMap.mpr ⟨t, ht, ?_⟩
  cases d <;> simp

/-- Filtering with a stronger predicate yields a list no longer. -/
theorem filter_length_mono {α : Type} (l : List α) (p q : α → Bool)
    (h : ∀ a, p a = true → q a = true) :
    (l.filter p).length ≤ (l.filter q).length := by
  induction l with
  | nil => simp
  | cons a t ih =>
    simp only [List.filter_cons]
    by_cases hp : p a = true
    · rw [if_pos hp, if_pos (h a hp)]
      simpa using ih
    · rw [if_neg hp]
      by_cases hq : q a = true
      · rw [if_pos hq]
        exact ih.trans (Nat.le_succ _)
      · rw [if_neg hq]
        exact ih

/-- Excluding one more element that is present and not yet excluded strictly
shrinks the filtered list. -/
theorem filter_not_mem_cons_lt (l v : List (String × CardinalDirection))
    (a : String × CardinalDirection) (hal : a ∈ l) (hav : a ∉ v) :
    (l.filter fun k => decide (k ∉ a :: v)).length <
      (l.filter fun k => decide (k ∉ v)).length := by
  induction l with
  | nil => cases hal
  | cons b t ih =>
    simp only [List.filter_cons]
    rcases List.mem_cons.mp hal with rfl | hat
    · rw [if_neg (by simp), if_pos (by simpa using hav)]
      have hm := filter_length_mono t (fun k => decide (k ∉ a :: v))
        (fun k => decide (k ∉ v)) (fun x hx => by
          simp only [decide_eq_true_eq] at hx ⊢
          exact fun hxv => hx (List.mem_cons_of_mem _ hxv))
      simpa using Nat.lt_succ_of_le hm
    · by_cases hb1 : (decide (b ∉ a :: v)) = true
      · have hb2 : (decide (b ∉ v)) = true := by
          simp only [decide_eq_true_eq] at hb1 ⊢
          exact fun hbv => hb1 (List.mem_cons_of_mem _ hbv)
        rw [if_pos hb1, if_pos hb2]
        simpa using ih hat
      · rw [if_neg hb1]
        by_cases hb2 : (decide (b ∉ v)) = true
        · rw [if_pos hb2]
          simpa using Nat.lt_succ_of_lt (ih hat)
        · rw [if_neg hb2]
          exact ih hat

/-- Visiting a fresh key of a map track strictly decreases `remKeys`. -/
theorem remKeys_cons_lt (tracks : List TrackPiece)
    (visited : List (String × CardinalDirection)) (t : TrackPiece) (d : CardinalDirection)
    (ht : t ∈ tracks) (hv : (t.id, d) ∉ visited) :
    remKeys tracks ((t.id, d) :: visited) < remKeys tracks visited := by
  unfold remKeys
  exact filter_not_mem_cons_lt (allKeys tracks) visited (t.id, d) (mem_allKeys ht d) hv

/-- `remKeys` is positive while a fresh key of a map track exists. -/
theorem remKeys_pos (tracks : List TrackPiece)
    (visited : List (String × CardinalDirection)) (t : TrackPiece) (d : CardinalDirection)
    (ht : t ∈ tracks) (hv : (t.id, d) ∉ visited) : 0 < remKeys tracks visited :=
  Nat.lt_of_le_of_lt (Nat.zero_le _) (remKeys_cons_lt tracks visited t d ht hv)

/-- Each `buildPath` iteration consumes a fresh visited key, so the number of
segments the walk appends is bounded by the unvisited-key count. -/
theorem buildPathGo_length_le (tracks : List TrackPiece) :
    ∀ (fuel : Nat) (cur : TrackPiece) (entry : CardinalDirection)
      (visited : List (String × CardinalDirection)) (acc : List PathSegment),
      cur ∈ tracks →
      (buildPathGo tracks fuel cur entry visited acc).1.length ≤
        acc.length + remKeys tracks visited := by
  intro fuel
  induction fuel with
  | zero =>
    intro cur entry visited acc _
    simp [buildPathGo]
  | succ f ih =>
    intro cur entry visited acc hcur
    simp only [buildPathGo]
    split
    · simp
    · rename_i hmem
      have hpos : 0 < remKeys tracks visited := remKeys_pos tracks visited cur entry hcur hmem
      split
      · simp
      · rename_i exitDir pIdx heq
        split
        · simp only [List.length_append, List.length_cons, List.length_nil]
          omega
        · rename_i nextTrack hnt
          split
          · rename_i hconn
            have hlt := remKeys_cons_lt tracks visited cur entry hcur hmem
            refine le_trans
              (ih nextTrack (OPPOSITE_DIRECTION exitDir) _ _ (findTrackAtPosition_mem hnt)) ?_
            simp only [List.length_append, List.length_cons, List.length_nil]
            omega
          · simp only [List.length_append, List.length_cons, List.length_nil]
            omega

/-- Any two sufficiently large fuels give the same `buildPathGo` result: the
modelled `while` loop terminates within `remKeys` iterations. -/
theorem buildPathGo_fuel_stable (tracks : List TrackPiece) :
    ∀ (fuel1 fuel2 : Nat) (cur : TrackPiece) (entry : CardinalDirection)
      (visited : List (String × CardinalDirection)) (acc : List PathSegment),
      cur ∈ tracks → remKeys tracks visited < fuel1 → remKeys tracks visited < fuel2 →
      buildPathGo tracks fuel1 cur entry visited acc =
        buildPathGo tracks fuel2 cur entry visited acc := by
  intro fuel1
  induction fuel1 with
  | zero =>
    intro fuel2 cur entry visited acc _ h1 _
    omega
  | succ f1 ih =>
    intro fuel2 cur entry visited acc hcur h1 h2
    cases fuel2 with
    | zero => omega
    | succ f2 =>
      simp only [buildPathGo]
      split
      · rfl
      · rename_i hmem
        have hlt := remKeys_cons_lt tracks visited cur entry hcur hmem
        split
        · rfl
        · rename_i exitDir pIdx heq
          split
          · rfl
          · rename_i nextTrack hnt
            split
            · exact ih f2 nextTrack (OPPOSITE_DIRECTION exitDir) _ _
                (findTrackAtPosition_mem hnt) (by omega) (by omega)
            · rfl

/-- `allKeys` has exactly four keys per map track. -/
theorem allKeys_length (tracks : List TrackPiece) :
    (allKeys tracks).length = 4 * tracks.length := by
  induction tracks with
  | nil => rfl
  | cons t rest ih =>
    simp only [allKeys, List.flatMap_cons, List.length_append, List.length_cons,
      List.length_nil] at ih ⊢
    omega

/-- With nothing visited, `remKeys` is four keys per track. -/
theorem remKeys_nil (tracks : List TrackPiece) :
    remKeys tracks [] = 4 * tracks.length := by
  unfold remKeys
  rw [List.filter_eq_self.mpr (by intro k _; simp), allKeys_length]

/-- C5 (amended): for every finite track map and every start track *in the
map* and start direction, `buildPath` terminates — any fuel beyond the bound
gives the same result as the default — and returns at most `4 * tracks.size`
segments (each (track, entry-direction) pair is consumed at most once, and a
track has four directions).  The claim's `tracks.size` bound is too small:
see the counterexample, where a figure-eight walk crosses one track twice. -/
theorem C5_buildPath_terminates_bounded (tracks : List TrackPiece)
    (startTrack : TrackPiece) (startDirection : CardinalDirection)
    (hstart : startTrack ∈ tracks) :
    (buildPath startTrack startDirection tracks).segments.length ≤ 4 * tracks.length ∧
      ∀ fuel, 4 * tracks.length < fuel →
        buildPathGo tracks fuel startTrack startDirection [] [] =
          buildPathGo tracks (buildPathFuel tracks) startTrack startDirection [] [] := by
  constructor
  · have h := buildPathGo_length_le tracks (buildPathFuel tracks) startTrack
      startDirection [] [] hstart
    simpa [buildPath, remKeys_nil] using h
  · intro fuel hfuel
    apply buildPathGo_fuel_stable tracks fuel (buildPathFuel tracks) startTrack
      startDirection [] [] hstart
    · rw [remKeys_nil]
      exact hfuel
    · rw [remKeys_nil]
      unfold buildPathFuel
      omega

set_option maxRecDepth 10000 in
/-- C5 (counterexample): the claimed `tracks.size` bound on the segment count
fails on a figure-eight network of 7 tracks, where the walk from the central
crossing produces 8 segments (the crossing is traversed once per through
path). -/
theorem C5_counterexample :
    crossingPiece ∈ figureEightTracks ∧ figureEightTracks.length = 7 ∧
      (buildPath crossingPiece N figureEightTracks).segments.length = 8 := by
  refine ⟨by decide, by decide, by decide⟩

/-- Witness for C5 on the figure-eight network. -/
theorem C5_witness :
    crossingPiece ∈ figureEightTracks ∧
      (buildPath crossingPiece N figureEightTracks).segments.length ≤
        4 * figureEightTracks.length ∧
      buildPathGo figureEightTracks 30 crossingPiece N [] [] =
        buildPathGo figureEightTracks (buildPathFuel figureEightTracks) crossingPiece N
          [] [] := by
  have h := C5_buildPath_terminates_bounded figureEightTracks crossingPiece N (by decide)
  exact ⟨by decide, h.1, h.2 30 (by decide)⟩

/-! ## Claim C4 -/

/-- A fallback step always yields a path. -/
theorem fallbackStepDir_isSome (tracks : List TrackPiece) (track : TrackPiece)
    (best : Option TrainPath) (d : CardinalDirection) :
    (fallbackStepDir tracks track best d).isSome = true := by
  simp only [fallbackStepDir]
  cases best with
  | none => rfl
  | some b =>
    simp only []
    split <;> rfl

/-- A fallback step never shrinks the incumbent's segment count. -/
theorem fallbackStepDir_optLen_mono (tracks : List TrackPiece) (track : TrackPiece)
    (best : Option TrainPath) (d : CardinalDirection) :
    optLen best ≤ optLen (fallbackStepDir tracks track best d) := by
  simp only [fallbackStepDir]
  cases best with
  | none => simp [optLen]
  | some b =>
    simp only []
    split
    · rename_i h
      simp only [optLen]
      omega
    · exact le_refl _

/-- After a fallback step, the incumbent dominates the considered
candidate. -/
theorem fallbackStepDir_dominates (tracks : List TrackPiece) (track : TrackPiece)
    (best : Option TrainPath) (d : CardinalDirection) :
    (buildPath track d tracks).segments.length ≤
      optLen (fallbackStepDir tracks track best d) := by
  simp only [fallbackStepDir]
  cases best with
  | none => simp [optLen]
  | some b =>
    simp only []
    split
    · simp [optLen]
    · rename_i h
      simp only [optLen]
      omega

/-- Folding fallback steps never shrinks the incumbent's segment count. -/
theorem foldl_stepDir_mono (tracks : List TrackPiece) (track : TrackPiece)
    (dirs : List CardinalDirection) (best : Option TrainPath) :
    optLen best ≤ optLen (dirs.foldl (fallbackStepDir tracks track) best) := by
  induction dirs generalizing best with
  | nil => exact le_refl _
  | cons d rest ih =>
    simp only [List.foldl_cons]
    exact le_trans (fallbackStepDir_optLen_mono tracks track best d) (ih _)

/-- Folding fallback steps preserves having a path. -/
theorem foldl_stepDir_isSome (tracks : List TrackPiece) (track : TrackPiece)
    (dirs : List CardinalDirection) (best : Option TrainPath)
    (h : best.isSome = true) :
    (dirs.foldl (fallbackStepDir tracks track) best).isSome = true := by
  induction dirs generalizing best with
  | nil => simpa using h
  | cons d rest ih =>
    simp only [List.foldl_cons]
    exact ih _ (fallbackStepDir_isSome tracks track best d)

/-- Folding fallback steps over a non-empty direction list yields a path. -/
theorem foldl_stepDir_isSome_of_ne_nil (tracks : List TrackPiece) (track : TrackPiece)
    (dirs : List CardinalDirection) (best : Option TrainPath) (h : dirs ≠ []) :
    (dirs.foldl (fallbackStepDir tracks track) best).isSome = true := by
  cases dirs with
  | nil => exact absurd rfl h
  | cons d rest =>
    simp only [List.foldl_cons]
    exact foldl_stepDir_isSome tracks track rest _ (fallbackStepDir_isSome tracks track best d)

/-- After folding over a direction list containing `d`, the incumbent
dominates the candidate built in direction `d`. -/
theorem foldl_stepDir_dominates (tracks : List TrackPiece) (track : TrackPiece)
    (dirs : List CardinalDirection) (best : Option TrainPath) (d : CardinalDirection)
    (hd : d ∈ dirs) :
    (buildPath track d tracks).segments.length ≤
      optLen (dirs.foldl (fallbackStepDir tracks track) best) := by
  induction dirs generalizing best with
  | nil => cases hd
  | cons a rest ih =>
    simp only [List.foldl_cons]
    rcases List.mem_cons.mp hd with rfl | hd2
    · exact le_trans (fallbackStepDir_dominates tracks track best d)
        (foldl_stepDir_mono tracks track rest _)
    · exact ih _ hd2

/-- A fallback step started from a fallback candidate (or nothing) yields a
fallback candidate. -/
theorem fallbackStepDir_cand (tracks : List TrackPiece) (track : TrackPiece)
    (best : Option TrainPath) (d : CardinalDirection) (ht : track ∈ tracks)
    (hd : d ∈ getTrackConnections track)
    (hbest : best = none ∨ ∃ p, best = some p ∧ isFallbackCandidate tracks p) :
    ∃ p, fallbackStepDir tracks track best d = some p ∧ isFallbackCandidate tracks p := by
  simp only [fallbackStepDir]
  rcases hbest with rfl | ⟨b, rfl, hb⟩
  · exact ⟨_, rfl, ⟨track, ht, d, hd, rfl⟩⟩
  · simp only []
    split
    · exact ⟨_, rfl, ⟨track, ht, d, hd, rfl⟩⟩
    · exact ⟨b, rfl, hb⟩

/-- Folding fallback steps keeps the incumbent a fallback candidate. -/
theorem foldl_stepDir_cand (tracks : List TrackPiece) (track : TrackPiece)
    (ht : track ∈ tracks) :
    ∀ (dirs : List CardinalDirection), (∀ d ∈ dirs, d ∈ getTrackConnections track) →
      ∀ (best : Option TrainPath),
        (best = none ∨ ∃ p, best = some p ∧ isFallbackCandidate tracks p) →
        (dirs.foldl (fallbackStepDir tracks track) best = none ∨
          ∃ p, dirs.foldl (fallbackStepDir tracks track) best = some p ∧
            isFallbackCandidate tracks p) := by
  intro dirs
  induction dirs with
  | nil =>
    intro _ best hbest
    simpa using hbest
  | cons a rest ih =>
    intro hdirs best hbest
    simp only [List.foldl_cons]
    exact ih (fun d hd => hdirs d (List.mem_cons_of_mem _ hd)) _
      (Or.inr (fallbackStepDir_cand tracks track best a ht
        (hdirs a (List.mem_cons_self _ _)) hbest))

/-- The outer fallback fold never shrinks the incumbent's segment count. -/
theorem foldl_stepTrack_mono (tracks : List TrackPiece) (l : List TrackPiece)
    (best : Option TrainPath) :
    optLen best ≤ optLen (l.foldl (fallbackStepTrack tracks) best) := by
  induction l generalizing best with
  | nil => exact le_refl _
  | cons t rest ih =>
    simp only [List.foldl_cons]
    refine le_trans ?_ (ih _)
    unfold fallbackStepTrack
    exact foldl_stepDir_mono tracks t _ best

/-- The outer fallback fold preserves having a path. -/
theorem foldl_stepTrack_isSome (tracks : List TrackPiece) (l : List TrackPiece)
    (best : Option TrainPath) (h : best.isSome = true) :
    (l.foldl (fallbackStepTrack tracks) best).isSome = true := by
  induction l generalizing best with
  | nil => simpa using h
  | cons t rest ih =>
    simp only [List.foldl_cons]
    apply ih
    unfold fallbackStepTrack
    cases hc : getTrackConnections t with
    | nil => simpa using h
    | cons a as =>
      simp only [List.foldl_cons]
      exact foldl_stepDir_isSome tracks t as _ (fallbackStepDir_isSome tracks t best a)

/-- After the outer fallback fold, the result exists and dominates every
candidate built from a listed track and one of its connection directions. -/
theorem foldl_stepTrack_dominates (tracks : List TrackPiece) :
    ∀ (l : List TrackPiece) (best : Option TrainPath) (t : TrackPiece), t ∈ l →
      ∀ (d : CardinalDirection), d ∈ getTrackConnections t →
      (buildPath t d tracks).segments.length ≤
          optLen (l.foldl (fallbackStepTrack tracks) best) ∧
        (l.foldl (fallbackStepTrack tracks) best).isSome = true := by
  intro l
  induction l with
  | nil =>
    intro best t ht
    cases ht
  | cons a rest ih =>
    intro best t ht d hd
    simp only [List.foldl_cons]
    rcases List.mem_cons.mp ht with rfl | ht2
    · constructor
      · refine le_trans ?_ (foldl_stepTrack_mono tracks rest _)
        unfold fallbackStepTrack
        exact foldl_stepDir_dominates tracks t _ best d hd
      · apply foldl_stepTrack_isSome
        unfold fallbackStepTrack
        exact foldl_stepDir_isSome_of_ne_nil tracks t _ best (List.ne_nil_of_mem hd)
    · exact ih _ t ht2 d hd

/-- The outer fallback fold keeps the incumbent a fallback candidate. -/
theorem foldl_stepTrack_cand (tracks : List TrackPiece) :
    ∀ (l : List TrackPiece), (∀ a ∈ l, a ∈ tracks) →
      ∀ (best : Option TrainPath),
        (best = none ∨ ∃ p, best = some p ∧ isFallbackCandidate tracks p) →
        (l.foldl (fallbackStepTrack tracks) best = none ∨
          ∃ p, l.foldl (fallbackStepTrack tracks) best = some p ∧
            isFallbackCandidate tracks p) := by
  intro l
  induction l with
  | nil =>
    intro _ best hbest
    simpa using hbest
  | cons a rest ih =>
    intro hl best hbest
    simp only [List.foldl_cons]
    apply ih (fun x hx => hl x (List.mem_cons_of_mem _ hx))
    unfold fallbackStepTrack
    exact foldl_stepDir_cand tracks a (hl a (List.mem_cons_self _ _))
      (getTrackConnections a) (fun d hd => hd) best hbest

/-- On a station-free map, `findBestPath` is exactly the fallback fold. -/
theorem findBestPath_no_station (tracks : List TrackPiece)
    (hns : ∀ t ∈ tracks, t.type ≠ TrackType.station) :
    findBestPath tracks = tracks.foldl (fallbackStepTrack tracks) none := by
  have hstations : tracks.filter (fun t => t.type == TrackType.station) = [] := by
    rw [List.filter_eq_nil_iff]
    intro a ha
    simpa using hns a ha
  unfold findBestPath
  rw [hstations]
  rfl

set_option maxRecDepth 10000 in
/-- C4 (counterexample): the claim requires loop-forming paths to be
preferred over equal-or-shorter non-loop paths.  On the station-free map
`c4Tracks` (a 4-straight line inserted before a 4-curve ring), the fallback
keeps the first maximal candidate — the 4-segment non-loop line path — even
though a 4-segment loop candidate exists from the ring: the fallback branch
applies no loop preference. -/
theorem C4_counterexample :
    ((findBestPath c4Tracks).map fun p => (p.segments.length, p.isLoop)) =
        some (4, false) ∧
      (∀ t ∈ c4Tracks, t.type ≠ TrackType.station) ∧
      ringPiece ∈ c4Tracks ∧ E ∈ getTrackConnections ringPiece ∧
      (buildPath ringPiece E c4Tracks).segments.length = 4 ∧
      (buildPath ringPiece E c4Tracks).isLoop = true := by
  exact ⟨by decide, by decide, by decide, by decide, by decide, by decide⟩

/-- C4 (amended): when no station exists, `findBestPath` returns a fallback
candidate (a path built from some track/direction pair of the map) whose
segment count is maximal among all such candidates — with no loop preference
in this branch; in the station branch, each step prefers a loop candidate
over any non-loop incumbent (even a longer one). -/
theorem C4_best_path_selection :
    (∀ (tracks : List TrackPiece), (∀ t ∈ tracks, t.type ≠ TrackType.station) →
      ∀ t ∈ tracks, ∀ d ∈ getTrackConnections t,
        ∃ bp, findBestPath tracks = some bp ∧
          (buildPath t d tracks).segments.length ≤ bp.segments.length ∧
          isFallbackCandidate tracks bp) ∧
    (∀ b p : TrainPath, p.isLoop = true → b.isLoop = false →
      considerStationPath (some b) (some p) = some p) := by
  constructor
  · intro tracks hns t ht d hd
    rw [findBestPath_no_station tracks hns]
    obtain ⟨hdom, hsome⟩ := foldl_stepTrack_dominates tracks tracks none t ht d hd
    obtain ⟨bp, hbp⟩ := Option.isSome_iff_exists.mp hsome
    have hcand := foldl_stepTrack_cand tracks tracks (fun a ha => ha) none (Or.inl rfl)
    rw [hbp] at hdom hcand
    refine ⟨bp, hbp, ?_, ?_⟩
    · simpa [optLen] using hdom
    · rcases hcand with h | ⟨p, hp, hc⟩
      · exact absurd h (by simp)
      · obtain rfl : p = bp := by
          have := hp.symm
          injection this
        exact hc
  · intro b p hp hb
    unfold considerStationPath
    by_cases hlt : b.segments.length < p.segments.length
    · simp [hlt, hp]
    · simp [hlt, hp, hb]

set_option maxRecDepth 10000 in
/-- Witness for C4 on the station-free c4Tracks map, and for the station-step
loop preference on concrete paths. -/
theorem C4_witness :
    (∀ t ∈ c4Tracks, t.type ≠ TrackType.station) ∧
      ringPiece ∈ c4Tracks ∧ E ∈ getTrackConnections ringPiece ∧
      (∃ bp, findBestPath c4Tracks = some bp ∧
        (buildPath ringPiece E c4Tracks).segments.length ≤ bp.segments.length ∧
        isFallbackCandidate c4Tracks bp) ∧
      considerStationPath (some straight3Path) (some loop3Path) = some loop3Path := by
  refine ⟨by decide, by decide, by decide, ?_, ?_⟩
  · exact C4_best_path_selection.1 c4Tracks (by decide) ringPiece (by decide) E (by decide)
  · exact C4_best_path_selection.2 straight3Path loop3Path rfl rfl

/-! ## Claim C9 -/

/-- The forward loop keeps the segment index inside `[0, length)`. -/
theorem advanceForwardGo_segmentIndex_bounds (path : TrainPath) :
    ∀ (fuel : Nat) (np : ℚ) (s : Int),
      0 ≤ s → s < (path.segments.length : Int) →
      0 ≤ (advanceForwardGo path fuel np s).segmentIndex ∧
        (advanceForwardGo path fuel np s).segmentIndex < (path.segments.length : Int) := by
  intro fuel
  induction fuel with
  | zero =>
    intro np s h0 h1
    exact ⟨h0, h1⟩
  | succ f ih =>
    intro np s h0 h1
    simp only [advanceForwardGo]
    split
    · split
      · split
        · split
          · refine ⟨le_refl 0, ?_⟩
            dsimp only
            omega
          · exact ih _ 0 le_rfl (by omega)
        · refine ⟨?_, ?_⟩ <;> dsimp only <;> omega
      · split
        · rename_i hend hred
          refine ⟨?_, ?_⟩ <;> dsimp only <;> omega
        · exact ih _ (s + 1) (by omega) (by omega)
    · exact ⟨h0, h1⟩

/-- The backward loop keeps the segment index inside `[0, length)`. -/
theorem advanceBackwardGo_segmentIndex_bounds (path : TrainPath) :
    ∀ (fuel : Nat) (np : ℚ) (s : Int),
      0 ≤ s → s < (path.segments.length : Int) →
      0 ≤ (advanceBackwardGo path fuel np s).segmentIndex ∧
        (advanceBackwardGo path fuel np s).segmentIndex < (path.segments.length : Int) := by
  intro fuel
  induction fuel with
  | zero =>
    intro np s h0 h1
    exact ⟨h0, h1⟩
  | succ f ih =>
    intro np s h0 h1
    simp only [advanceBackwardGo]
    split
    · split
      · split
        · split
          · refine ⟨?_, ?_⟩ <;> dsimp only <;> omega
          · exact ih _ ((path.segments.length : Int) - 1) (by omega) (by omega)
        · refine ⟨?_, ?_⟩ <;> dsimp only <;> omega
      · split
        · rename_i hstart hred
          refine ⟨?_, ?_⟩ <;> dsimp only <;> omega
        · exact ih _ (s - 1) (by omega) (by omega)
    · exact ⟨h0, h1⟩

/-- C9: the motion engine respects the data-model invariant.
`calculateTrainPosition` evaluates the segment at the input index clamped
into `[0, length−1]` (and reports that clamped index); `advanceTrainPosition`
returns a progress in `[0, 1]` and, for an in-range input index, a segment
index in `[0, length−1]`. -/
theorem C9_engine_invariants :
    (∀ (path : TrainPath) (i : Int) (p ox oy : ℚ) (d : Int),
        path.segments.length ≠ 0 →
          (calculateTrainPosition path i p ox oy d).segmentIndex =
              max 0 (min i ((path.segments.length : Int) - 1)) ∧
            0 ≤ (calculateTrainPosition path i p ox oy d).segmentIndex ∧
            (calculateTrainPosition path i p ox oy d).segmentIndex ≤
              (path.segments.length : Int) - 1) ∧
    (∀ (path : TrainPath) (s : Int) (p speed dt : ℚ) (d : Int),
        0 ≤ s → s < (path.segments.length : Int) → (d = 1 ∨ d = -1) →
          0 ≤ (advanceTrainPosition path s p speed dt d).progress ∧
            (advanceTrainPosition path s p speed dt d).progress ≤ 1 ∧
            0 ≤ (advanceTrainPosition path s p speed dt d).segmentIndex ∧
            (advanceTrainPosition path s p speed dt d).segmentIndex ≤
              (path.segments.length : Int) - 1) := by
  constructor
  · intro path i p ox oy d hlen
    have hseg : (calculateTrainPosition path i p ox oy d).segmentIndex =
        max 0 (min i ((path.segments.length : Int) - 1)) := by
      unfold calculateTrainPosition
      rw [if_neg hlen]
    refine ⟨hseg, ?_, ?_⟩
    · rw [hseg]
      exact le_max_left _ _
    · rw [hseg]
      exact max_le (by omega) (min_le_right _ _)
  · intro path s p speed dt d h0 h1 hd
    have hlen : path.segments.length ≠ 0 := by omega
    rcases hd with rfl | rfl
    · have e := advanceTrainPosition_eq_fwd path s p speed dt hlen
      have hb := advanceForwardGo_segmentIndex_bounds path
        (((p + speed * dt).num / ((p + speed * dt).den : Int) + 1).toNat + 1)
        (p + speed * dt) s h0 h1
      refine ⟨?_, ?_, ?_, ?_⟩ <;> rw [e] <;> dsimp only
      · exact le_max_left _ _
      · exact max_le zero_le_one (min_le_left _ _)
      · exact hb.1
      · have := hb.2
        omega
    · have e := advanceTrainPosition_eq_bwd path s p speed dt hlen
      have hb := advanceBackwardGo_segmentIndex_bounds path
        (((p + speed * dt).num / ((p + speed * dt).den : Int) + 1).toNat + 1)
        (p + speed * dt) s h0 h1
      refine ⟨?_, ?_, ?_, ?_⟩ <;> rw [e] <;> dsimp only
      · exact le_max_left _ _
      · exact max_le zero_le_one (min_le_left _ _)
      · exact hb.1
      · have := hb.2
        omega

/-- Witness for C9 on the concrete 3-segment path. -/
theorem C9_witness :
    straight3Path.segments.length ≠ 0 ∧
      (calculateTrainPosition straight3Path 7 (1/2) 0 0 1).segmentIndex =
        max 0 (min 7 ((straight3Path.segments.length : Int) - 1)) ∧
      0 ≤ (advanceTrainPosition straight3Path 1 (1/2) 1 (1/4) 1).progress ∧
      (advanceTrainPosition straight3Path 1 (1/2) 1 (1/4) 1).progress ≤ 1 ∧
      0 ≤ (advanceTrainPosition straight3Path 1 (1/2) 1 (1/4) 1).segmentIndex ∧
      (advanceTrainPosition straight3Path 1 (1/2) 1 (1/4) 1).segmentIndex ≤
        (straight3Path.segments.length : Int) - 1 := by
  have h1 := (C9_engine_invariants.1 straight3Path 7 (1/2) 0 0 1 (by decide)).1
  have h2 := C9_engine_invariants.2 straight3Path 1 (1/2) 1 (1/4) 1 (by norm_num)
    (by decide) (Or.inl rfl)
  exact ⟨by decide, h1, h2.1, h2.2.1, h2.2.2.1, h2.2.2.2⟩
